import Mathlib

/-!
Shallow embedding of the Stokvel listener agent (`src/listener.py`).

Monetary amounts are modelled as exact rationals: the source keeps wei
values as Python ints and converts to ether via `w3.from_wei` (division
by 10^18) before comparing against the rule thresholds stored in the
database.  External effects (ledger reads, transaction submission and
receipt, socket notification emission) are modelled as per-iteration
environment values: an `Except Unit _` models a call that either returns
a value or raises an exception that the surrounding `try/except` catches.
-/

namespace Stokvel

/-- Python's `str.lower()` as used for the address comparison on
listener.py line 192, modelled character-wise over the string's
characters (addresses are ASCII hex strings). -/
def lower (s : String) : List Char := s.data.map Char.toLower

/-- Wei per ether, the conversion factor used by `w3.from_wei`/`w3.to_wei`. -/
def WEI_PER_ETHER : ℚ := 10 ^ 18

/-- `w3.from_wei(w, 'ether')`: division by 10^18, exact over ℚ. -/
def from_wei (w : ℚ) : ℚ := w / WEI_PER_ETHER

/-- `w3.to_wei(e, 'ether')`: multiplication by 10^18. -/
def to_wei (e : ℚ) : ℚ := e * WEI_PER_ETHER

/-- An active `AutoFundRule` row as read from the rules database
(`db_session.query(AutoFundRule).filter_by(is_active=True)`), listener.py
lines 64-70.  Only the fields the handler reads are kept; `is_active`
is omitted because the handler only ever sees rows where it is true. -/
structure AutoFundRule where
  user_address : String
  max_fund_amount : ℚ
  min_savings_balance : ℚ
deriving Repr, DecidableEq

/-- The two fields of `getLoan(loan_id)` read by `handle_auto_fund`:
`loan_data[1]` (amountRequested) and `loan_data[2]` (amountFunded),
both in wei. -/
structure LoanCall where
  amount_requested_wei : ℚ
  amount_funded_wei : ℚ
deriving Repr, DecidableEq

/-- A notification payload emitted over the socket by `handle_auto_fund`:
either the success message (listener.py line 253) carrying the funded
ether amount, or the on-chain-failure alert (line 271). -/
inductive Notif where
  | fundSuccess (loanId : ℕ) (amount_ether : ℚ)
  | fundAlert (loanId : ℕ)
deriving Repr, DecidableEq

/-- The external environment one rule iteration interacts with.
`getMember` is the `getMember(...).call()` read of the lender's
`availableSavings` (wei, `lender_data[5]`); `.error` means the call
raised.  `receiptStatus` covers nonce fetch, build, sign,
`send_raw_transaction` and `wait_for_transaction_receipt`: `.error`
means one of them raised, `.ok b` means a receipt was obtained and
`b = (receipt.status == 1)`.  `emitOk` is whether `sio.emit` succeeds
(when false, the emit raises and the per-rule `except` catches it). -/
structure RuleEnv where
  getMember : Except Unit ℚ
  receiptStatus : Except Unit Bool
  emitOk : Bool
deriving Repr

/-- What one iteration of the rule loop did.  `submitted` is the wei
amount passed to `fundLoan` when the submission path was reached;
`receipt` is `some (status == 1)` when a receipt was obtained;
`notifs` are the notifications whose emission succeeded; `neededAfter`
is the value of `amount_needed_wei` after the iteration; `halt` is
whether the iteration executed `break`. -/
structure RuleOutcome where
  submitted : Option ℚ
  receipt : Option Bool
  notifs : List Notif
  neededAfter : ℚ
  halt : Bool
deriving Repr, DecidableEq

/-- One iteration of the `for rule in active_rules` loop of
`handle_auto_fund` (listener.py lines 187-289), including the
surrounding per-rule `try/except` that turns any raised exception into
`continue`.  Mirrors the source control flow exactly; in particular the
success notification is emitted *before* `amount_needed_wei` is
decremented, so an emit failure skips the decrement and the halt check. -/
def processRule (loanId : ℕ) (borrower : String) (rule : AutoFundRule)
    (env : RuleEnv) (needed_wei : ℚ) : RuleOutcome :=
  if lower rule.user_address = lower borrower then
    ⟨none, none, [], needed_wei, false⟩
  else
    match env.getMember with
    | .error _ => ⟨none, none, [], needed_wei, false⟩
    | .ok available_savings_wei =>
      let available_savings_ether := from_wei available_savings_wei
      let amount_needed_ether := from_wei needed_wei
      if available_savings_ether ≥ rule.min_savings_balance then
        let fund_amount_ether := min rule.max_fund_amount amount_needed_ether
        if fund_amount_ether > 0 ∧ available_savings_ether ≥ fund_amount_ether then
          let fund_amount_wei := to_wei fund_amount_ether
          match env.receiptStatus with
          | .error _ => ⟨some fund_amount_wei, none, [], needed_wei, false⟩
          | .ok true =>
            if env.emitOk then
              let needed2 := needed_wei - fund_amount_wei
              ⟨some fund_amount_wei, some true,
                [Notif.fundSuccess loanId fund_amount_ether], needed2,
                decide (needed2 ≤ 0)⟩
            else
              ⟨some fund_amount_wei, some true, [], needed_wei, false⟩
          | .ok false =>
            if env.emitOk then
              ⟨some fund_amount_wei, some false, [Notif.fundAlert loanId],
                needed_wei, false⟩
            else
              ⟨some fund_amount_wei, some false, [], needed_wei, false⟩
        else ⟨none, none, [], needed_wei, false⟩
      else ⟨none, none, [], needed_wei, false⟩

/-- The rule loop: threads `amount_needed_wei` through the iterations and
stops early when an iteration executed `break`. -/
def autoFundLoop (loanId : ℕ) (borrower : String) :
    List (AutoFundRule × RuleEnv) → ℚ → List RuleOutcome
  | [], _ => []
  | (rule, env) :: rest, needed_wei =>
    let o := processRule loanId borrower rule env needed_wei
    if o.halt then [o] else o :: autoFundLoop loanId borrower rest o.neededAfter

/-- `handle_auto_fund` (listener.py lines 163-289): returns early when no
active rule exists or when the loan is already fully funded
(`amount_needed_wei <= 0`), otherwise runs the rule loop.  The trigger
event supplies `loanId` and `borrower`; `active_rules` pairs each rule
row returned by the database query with the external environment its
iteration will see; `loan` is the `getLoan(loan_id)` result. -/
def handle_auto_fund (loanId : ℕ) (borrower : String)
    (active_rules : List (AutoFundRule × RuleEnv)) (loan : LoanCall) :
    List RuleOutcome :=
  if active_rules.isEmpty then []
  else
    let amount_needed_wei := loan.amount_requested_wei - loan.amount_funded_wei
    if amount_needed_wei ≤ 0 then []
    else autoFundLoop loanId borrower active_rules amount_needed_wei

/-- Wei amount of the fund transaction confirmed successful in this
iteration (0 when none was submitted or the receipt was not status 1). -/
def confirmedWei (o : RuleOutcome) : ℚ :=
  match o.submitted, o.receipt with
  | some a, some true => a
  | _, _ => 0

/-- Total wei confirmed across the iterations of one trigger. -/
def confirmedTotal (l : List RuleOutcome) : ℚ := (l.map confirmedWei).sum

lemma from_wei_to_wei (x : ℚ) : from_wei (to_wei x) = x := by
  unfold from_wei to_wei WEI_PER_ETHER
  rw [mul_div_assoc, div_self (by norm_num), mul_one]

lemma autoFundLoop_cons_no_halt (loanId : ℕ) (borrower : String)
    (rule : AutoFundRule) (env : RuleEnv) (rest : List (AutoFundRule × RuleEnv))
    (needed : ℚ) (h : (processRule loanId borrower rule env needed).halt = false) :
    autoFundLoop loanId borrower ((rule, env) :: rest) needed =
      processRule loanId borrower rule env needed ::
        autoFundLoop loanId borrower rest
          (processRule loanId borrower rule env needed).neededAfter := by
  rw [autoFundLoop, if_neg (by rw [h]; exact Bool.false_ne_true)]

/-- C1 (failing-input evidence): `handle_auto_fund` can confirm fund
transactions totalling more than the loan's need.  Loan #7 needs 100
ether; two rules each allow 100 ether.  The first rule's transaction is
confirmed on-chain but its success notification raises, so the per-rule
`except` swallows the emit failure before line 261 runs and
`amount_needed_wei` is never decremented; the second rule then funds the
full 100 again.  Total confirmed: 200 ether against a need of 100, and
the claimed per-confirmation decrement of the needed accumulator did not
happen for the first funding. -/
theorem c1_confirmed_total_exceeds_need :
    confirmedTotal
        (handle_auto_fund 7 "0xborrower"
          [(⟨"0xlender1", 100, 0⟩, ⟨.ok (to_wei 1000), .ok true, false⟩),
           (⟨"0xlender2", 100, 0⟩, ⟨.ok (to_wei 1000), .ok true, true⟩)]
          ⟨to_wei 100, 0⟩) = to_wei 200 ∧
      to_wei 100 < to_wei 200 := by
  constructor
  · norm_num [handle_auto_fund, autoFundLoop, processRule, confirmedTotal,
      confirmedWei, lower, from_wei, to_wei, WEI_PER_ETHER, min_def]
  · norm_num [to_wei, WEI_PER_ETHER]

/-- C2 (failing-input evidence): a rule iteration whose fund transaction
is confirmed on-chain (`receipt = some true`) but whose success
notification raises (`emitOk = false`) leaves `amount_needed_wei`
unchanged and does not halt, because the source emits the notification
(line 253) before the decrement (line 261) inside the per-rule `try`.
Loan #7 needs 100 ether and the single rule funds exactly 100, so the
claim's expected outcome would be `neededAfter = 0` and `halt = true`;
the code instead keeps `neededAfter = to_wei 100` and `halt = false`. -/
theorem c2_emit_failure_loses_progress :
    handle_auto_fund 7 "0xborrower"
        [(⟨"0xlender1", 100, 0⟩, ⟨.ok (to_wei 1000), .ok true, false⟩)]
        ⟨to_wei 100, 0⟩ =
      [⟨some (to_wei 100), some true, [], to_wei 100, false⟩] := by
  norm_num [handle_auto_fund, autoFundLoop, processRule, lower,
    from_wei, to_wei, WEI_PER_ETHER, min_def]

lemma processRule_receipt_false (loanId : ℕ) (borrower : String) (rule : AutoFundRule)
    (env : RuleEnv) (needed : ℚ)
    (hemit : env.emitOk = true)
    (hrev : (processRule loanId borrower rule env needed).receipt = some false) :
    processRule loanId borrower rule env needed =
      ⟨some (to_wei (min rule.max_fund_amount (from_wei needed))), some false,
        [Notif.fundAlert loanId], needed, false⟩ := by
  obtain ⟨gm, rs, eo⟩ := env
  simp only at hemit
  subst hemit
  unfold processRule at hrev ⊢
  split at hrev
  · exact absurd hrev (by simp)
  · next h1 =>
    rw [if_neg h1]
    cases gm with
    | error u => exact absurd hrev (by simp)
    | ok avail =>
      dsimp only at hrev ⊢
      split at hrev
      · next hB =>
        rw [if_pos hB]
        split at hrev
        · next hC =>
          rw [if_pos hC]
          cases rs with
          | error u => exact absurd hrev (by simp)
          | ok b =>
            cases b with
            | true => exact absurd hrev (by simp)
            | false => simp
        · next hC => exact absurd hrev (by simp)
      · next hB => exact absurd hrev (by simp)

lemma processRule_submitted_inv (loanId : ℕ) (borrower : String) (rule : AutoFundRule)
    (env : RuleEnv) (needed : ℚ) (a : ℚ)
    (hsub : (processRule loanId borrower rule env needed).submitted = some a) :
    a = to_wei (min rule.max_fund_amount (from_wei needed)) ∧
    ∃ avail, env.getMember = Except.ok avail ∧
      from_wei avail ≥ rule.min_savings_balance ∧
      min rule.max_fund_amount (from_wei needed) > 0 ∧
      from_wei avail ≥ min rule.max_fund_amount (from_wei needed) := by
  obtain ⟨gm, rs, eo⟩ := env
  unfold processRule at hsub
  split at hsub
  · exact absurd hsub (by simp)
  · cases gm with
    | error u => exact absurd hsub (by simp)
    | ok avail =>
      dsimp only at hsub
      split at hsub
      · next hB =>
        split at hsub
        · next hC =>
          have ha : a = to_wei (min rule.max_fund_amount (from_wei needed)) := by
            cases rs with
            | error u =>
              simp at hsub
              exact hsub.symm
            | ok b =>
              cases b <;> cases eo <;> simp at hsub <;> exact hsub.symm
          exact ⟨ha, avail, rfl, hB, hC.1, hC.2⟩
        · exact absurd hsub (by simp)
      · exact absurd hsub (by simp)

lemma processRule_exception_skip (loanId : ℕ) (borrower : String) (rule : AutoFundRule)
    (env : RuleEnv) (needed : ℚ)
    (h : env.getMember = Except.error () ∨ env.receiptStatus = Except.error () ∨
      env.emitOk = false) :
    (processRule loanId borrower rule env needed).neededAfter = needed ∧
    (processRule loanId borrower rule env needed).halt = false := by
  obtain ⟨gm, rs, eo⟩ := env
  simp only at h
  unfold processRule
  split
  · simp
  · cases gm with
    | error u => simp
    | ok avail =>
      dsimp only
      split
      · split
        · cases rs with
          | error u => simp
          | ok b =>
            cases b with
            | true =>
              have heo : eo = false := by
                rcases h with h | h | h
                · exact absurd h (by simp)
                · exact absurd h (by simp)
                · exact h
              subst heo
              simp
            | false => cases eo <;> simp
        · simp
      · simp

/-- C3: a rule iteration whose submitted fund transaction comes back with
a non-success receipt (`receipt = some false`, the `tx_receipt.status != 1`
branch of listener.py lines 267-277) emits the alert notification, leaves
`amount_needed_wei` unchanged, does not halt, and the loop goes on to
evaluate the remaining rules with the same needed amount. -/
theorem c3_reverted_alert_no_decrement_no_halt (loanId : ℕ) (borrower : String)
    (rule : AutoFundRule) (env : RuleEnv) (needed : ℚ)
    (rest : List (AutoFundRule × RuleEnv))
    (hemit : env.emitOk = true)
    (hrev : (processRule loanId borrower rule env needed).receipt = some false) :
    (processRule loanId borrower rule env needed).notifs = [Notif.fundAlert loanId] ∧
    (processRule loanId borrower rule env needed).neededAfter = needed ∧
    (processRule loanId borrower rule env needed).halt = false ∧
    autoFundLoop loanId borrower ((rule, env) :: rest) needed =
      processRule loanId borrower rule env needed ::
        autoFundLoop loanId borrower rest needed := by
  have hpr := processRule_receipt_false loanId borrower rule env needed hemit hrev
  refine ⟨by rw [hpr], by rw [hpr], by rw [hpr], ?_⟩
  rw [autoFundLoop_cons_no_halt _ _ _ _ _ _ (by rw [hpr]), hpr]

theorem c3_reverted_alert_no_decrement_no_halt_witness :
    (processRule 9 "0xborrower" ⟨"0xlender1", 100, 10⟩
        ⟨.ok (to_wei 1000), .ok false, true⟩ (to_wei 100)).notifs =
      [Notif.fundAlert 9] ∧
    (processRule 9 "0xborrower" ⟨"0xlender1", 100, 10⟩
        ⟨.ok (to_wei 1000), .ok false, true⟩ (to_wei 100)).neededAfter = to_wei 100 ∧
    (processRule 9 "0xborrower" ⟨"0xlender1", 100, 10⟩
        ⟨.ok (to_wei 1000), .ok false, true⟩ (to_wei 100)).halt = false ∧
    autoFundLoop 9 "0xborrower"
        [(⟨"0xlender1", 100, 10⟩, ⟨.ok (to_wei 1000), .ok false, true⟩)] (to_wei 100) =
      processRule 9 "0xborrower" ⟨"0xlender1", 100, 10⟩
          ⟨.ok (to_wei 1000), .ok false, true⟩ (to_wei 100) ::
        autoFundLoop 9 "0xborrower" [] (to_wei 100) :=
  c3_reverted_alert_no_decrement_no_halt 9 "0xborrower" _ _ _ [] rfl
    (by norm_num [processRule, lower, from_wei, to_wei, WEI_PER_ETHER, min_def])

/-- C4: when the freshly fetched loan has `amountFunded >= amountRequested`
(`amount_needed_wei <= 0`, listener.py lines 181-185), `handle_auto_fund`
is a no-op: no rule iteration runs and no fund transaction is submitted. -/
theorem c4_fully_funded_noop (loanId : ℕ) (borrower : String)
    (active_rules : List (AutoFundRule × RuleEnv)) (loan : LoanCall)
    (h : loan.amount_funded_wei ≥ loan.amount_requested_wei) :
    handle_auto_fund loanId borrower active_rules loan = [] := by
  unfold handle_auto_fund
  split
  · rfl
  · rw [if_pos (by linarith)]

theorem c4_fully_funded_noop_witness :
    handle_auto_fund 3 "0xborrower"
        [(⟨"0xlender1", 100, 0⟩, ⟨.ok (to_wei 1000), .ok true, true⟩)]
        ⟨to_wei 100, to_wei 100⟩ = [] :=
  c4_fully_funded_noop 3 "0xborrower" _ _ le_rfl

/-- C5: whenever a rule iteration reaches `fundLoan` submission, the wei
amount is exactly `to_wei (min rule.max_fund_amount needed_ether)`
(listener.py line 210), hence never above the rule's `max_fund_amount`;
moreover the lender's freshly fetched `availableSavings` was at least the
rule's `min_savings_balance`, the fund amount was positive, and the
available savings covered it (lines 208-215) — otherwise the rule is
skipped without submission. -/
theorem c5_submission_constraints (loanId : ℕ) (borrower : String)
    (rule : AutoFundRule) (env : RuleEnv) (needed : ℚ) (a : ℚ)
    (hsub : (processRule loanId borrower rule env needed).submitted = some a) :
    a = to_wei (min rule.max_fund_amount (from_wei needed)) ∧
    from_wei a ≤ rule.max_fund_amount ∧
    ∃ avail, env.getMember = Except.ok avail ∧
      from_wei avail ≥ rule.min_savings_balance ∧
      min rule.max_fund_amount (from_wei needed) > 0 ∧
      from_wei avail ≥ min rule.max_fund_amount (from_wei needed) := by
  obtain ⟨ha, avail, hgm, hB, hpos, hcov⟩ :=
    processRule_submitted_inv loanId borrower rule env needed a hsub
  refine ⟨ha, ?_, avail, hgm, hB, hpos, hcov⟩
  rw [ha, from_wei_to_wei]
  exact min_le_left _ _

theorem c5_submission_constraints_witness :
    to_wei 60 = to_wei (min (60 : ℚ) (from_wei (to_wei 100))) ∧
    from_wei (to_wei 60) ≤ (60 : ℚ) ∧
    ∃ avail,
      (⟨Except.ok (to_wei 200), Except.ok true, true⟩ : RuleEnv).getMember =
        Except.ok avail ∧
      from_wei avail ≥ (10 : ℚ) ∧
      min (60 : ℚ) (from_wei (to_wei 100)) > 0 ∧
      from_wei avail ≥ min (60 : ℚ) (from_wei (to_wei 100)) :=
  c5_submission_constraints 4 "0xborrower" ⟨"0xlender1", 60, 10⟩
    ⟨Except.ok (to_wei 200), Except.ok true, true⟩ (to_wei 100) (to_wei 60)
    (by norm_num [processRule, lower, from_wei, to_wei, WEI_PER_ETHER, min_def])

/-- C6: a rule whose `user_address` equals the triggering loan's borrower
address is skipped outright (listener.py lines 192-196): no member read,
no submission, no notification, needed unchanged, no halt — regardless of
the rule's other parameters and of the environment. -/
theorem c6_self_funding_skipped (loanId : ℕ) (borrower : String)
    (rule : AutoFundRule) (env : RuleEnv) (needed : ℚ)
    (h : rule.user_address = borrower) :
    processRule loanId borrower rule env needed = ⟨none, none, [], needed, false⟩ := by
  unfold processRule
  rw [if_pos (by rw [h])]

theorem c6_self_funding_skipped_witness :
    processRule 5 "0xBorrower" ⟨"0xBorrower", 1000000, 0⟩
        ⟨.ok (to_wei 1000000), .ok true, true⟩ (to_wei 100) =
      ⟨none, none, [], to_wei 100, false⟩ :=
  c6_self_funding_skipped 5 "0xBorrower" _ _ _ rfl

/-- C7: an exception raised while processing a single rule — the
`getMember` ledger read raising, the transaction submission/receipt wait
raising, or the notification emit raising — is caught by the per-rule
`try/except` (listener.py lines 287-289) and treated as a skip: the
needed accumulator is unchanged, the iteration does not halt, and the
loop continues into every remaining rule with the same needed amount. -/
theorem c7_rule_exception_isolated (loanId : ℕ) (borrower : String)
    (rule : AutoFundRule) (env : RuleEnv) (needed : ℚ)
    (rest : List (AutoFundRule × RuleEnv))
    (h : env.getMember = Except.error () ∨ env.receiptStatus = Except.error () ∨
      env.emitOk = false) :
    (processRule loanId borrower rule env needed).neededAfter = needed ∧
    (processRule loanId borrower rule env needed).halt = false ∧
    autoFundLoop loanId borrower ((rule, env) :: rest) needed =
      processRule loanId borrower rule env needed ::
        autoFundLoop loanId borrower rest needed := by
  obtain ⟨hn, hh⟩ := processRule_exception_skip loanId borrower rule env needed h
  refine ⟨hn, hh, ?_⟩
  rw [autoFundLoop_cons_no_halt _ _ _ _ _ _ hh, hn]

theorem c7_rule_exception_isolated_witness :
    (processRule 6 "0xborrower" ⟨"0xlender1", 100, 10⟩
        ⟨.error (), .ok true, true⟩ (to_wei 100)).neededAfter = to_wei 100 ∧
    (processRule 6 "0xborrower" ⟨"0xlender1", 100, 10⟩
        ⟨.error (), .ok true, true⟩ (to_wei 100)).halt = false ∧
    autoFundLoop 6 "0xborrower"
        [(⟨"0xlender1", 100, 10⟩, ⟨.error (), .ok true, true⟩),
         (⟨"0xlender2", 100, 10⟩, ⟨.ok (to_wei 1000), .ok true, true⟩)] (to_wei 100) =
      processRule 6 "0xborrower" ⟨"0xlender1", 100, 10⟩
          ⟨.error (), .ok true, true⟩ (to_wei 100) ::
        autoFundLoop 6 "0xborrower"
          [(⟨"0xlender2", 100, 10⟩, ⟨.ok (to_wei 1000), .ok true, true⟩)] (to_wei 100) :=
  c7_rule_exception_isolated 6 "0xborrower" _ _ _ _ (Or.inl rfl)

/-- Grace period (seconds) before a loan counts as severely overdue,
listener.py line 303. -/
def GRACE_SECONDS : ℚ := 5616000

/-- The per-loan data `check_for_potential_defaults` reads:
`loan_data[5]`, `loan_data[6]`, `loan_data[7]` from `getLoan(i)`, and
`installment_data[0]` from `getInstallment(i, next_idx)` (meaningful when
the nested condition reaches it). -/
structure AuditLoan where
  is_active : Bool
  is_defaulted : Bool
  next_installment_index : ℕ
  due_date_timestamp : ℚ
deriving Repr, DecidableEq

/-- An observable action of the auditor: emitting the default-alert
notification for a loan, or submitting a chain-mutating transaction.
The source of `check_for_potential_defaults` performs only read calls
(`.call()`) and socket emits, so the translation never produces
`chainWrite`; the constructor exists so that "the auditor submits no
chain-mutating transaction" is a statement about the output. -/
inductive AuditAction where
  | alert (loanId : ℕ)
  | chainWrite
deriving Repr, DecidableEq

/-- The qualifying condition of listener.py lines 298-303:
`isActive && !isDefaulted && nextInstallmentIndex < 12` and
`now > dueTimestamp + 5616000`. -/
def qualifying_overdue (l : AuditLoan) (now : ℚ) : Prop :=
  l.is_active = true ∧ l.is_defaulted = false ∧ l.next_installment_index < 12 ∧
    now > l.due_date_timestamp + GRACE_SECONDS

instance (l : AuditLoan) (now : ℚ) : Decidable (qualifying_overdue l now) :=
  decidable_of_iff (l.is_active = true ∧ l.is_defaulted = false ∧
    l.next_installment_index < 12 ∧ now > l.due_date_timestamp + GRACE_SECONDS) Iff.rfl

/-- The `for i in range(total_loans)` scan of `check_for_potential_defaults`
(listener.py lines 292-310).  Each position holds `.ok` with the loan's
data, or `.error` when one of the ledger reads for that loan raises.
Because the single `try/except` wraps the whole scan, an error stops the
scan: alerts emitted for earlier loans stand, later loans are never
examined. -/
def auditStep (now : ℚ) : ℕ → List (Except Unit AuditLoan) → List AuditAction
  | _, [] => []
  | _, .error _ :: _ => []
  | i, .ok l :: rest =>
    (if l.is_active = true ∧ l.is_defaulted = false ∧ l.next_installment_index < 12 then
      if now > l.due_date_timestamp + GRACE_SECONDS then [AuditAction.alert i] else []
    else []) ++ auditStep now (i + 1) rest

/-- `check_for_potential_defaults` over the full loan list (indices start
at 0, as `range(total_loans)` does). -/
def check_for_potential_defaults (loans : List (Except Unit AuditLoan)) (now : ℚ) :
    List AuditAction :=
  auditStep now 0 loans

lemma auditStep_block (l : AuditLoan) (now : ℚ) (i : ℕ)
    (rest : List (Except Unit AuditLoan)) :
    auditStep now i (.ok l :: rest) =
      (if qualifying_overdue l now then [AuditAction.alert i] else []) ++
        auditStep now (i + 1) rest := by
  rw [auditStep]
  congr 1
  by_cases h1 : l.is_active = true ∧ l.is_defaulted = false ∧ l.next_installment_index < 12
  · rw [if_pos h1]
    by_cases h2 : now > l.due_date_timestamp + GRACE_SECONDS
    · rw [if_pos h2, if_pos ⟨h1.1, h1.2.1, h1.2.2, h2⟩]
    · rw [if_neg h2, if_neg (fun hq => h2 hq.2.2.2)]
  · rw [if_neg h1, if_neg (fun hq => h1 ⟨hq.1, hq.2.1, hq.2.2.1⟩)]

lemma auditStep_count_lt (now : ℚ) (loans : List (Except Unit AuditLoan)) (s j : ℕ)
    (h : j < s) : (auditStep now s loans).count (AuditAction.alert j) = 0 := by
  induction loans generalizing s with
  | nil => simp [auditStep]
  | cons x rest ih =>
    cases x with
    | error u => simp [auditStep]
    | ok l =>
      rw [auditStep_block, List.count_append]
      have h1 : (if qualifying_overdue l now then [AuditAction.alert s] else []).count
          (AuditAction.alert j) = 0 := by
        split
        · simp [List.count_singleton]
          omega
        · simp
      rw [h1, ih (s + 1) (by omega)]

lemma auditStep_count (now : ℚ) (loans : List AuditLoan) (s j : ℕ) :
    (auditStep now s (loans.map Except.ok)).count (AuditAction.alert (s + j)) =
      if h : j < loans.length then
        (if qualifying_overdue (loans.get ⟨j, h⟩) now then 1 else 0)
      else 0 := by
  induction loans generalizing s j with
  | nil => simp [auditStep]
  | cons l rest ih =>
    rw [List.map_cons, auditStep_block, List.count_append]
    cases j with
    | zero =>
      rw [auditStep_count_lt now _ (s + 1) (s + 0) (by omega), Nat.add_zero]
      by_cases hq : qualifying_overdue l now
      · rw [if_pos hq, dif_pos (by simp : (0 : ℕ) < (l :: rest).length)]
        simp [List.count_singleton, List.get_cons_zero, hq]
      · rw [if_neg hq, dif_pos (by simp : (0 : ℕ) < (l :: rest).length)]
        simp [List.get_cons_zero, hq]
    | succ j' =>
      have h1 : (if qualifying_overdue l now then [AuditAction.alert s] else []).count
          (AuditAction.alert (s + (j' + 1))) = 0 := by
        split
        · simp [List.count_singleton]
        · simp
      rw [h1]
      have h2 : s + (j' + 1) = (s + 1) + j' := by omega
      rw [h2, ih (s + 1) j']
      simp [List.length_cons]

lemma auditStep_no_chainWrite (now : ℚ) (loans : List (Except Unit AuditLoan)) (s : ℕ) :
    AuditAction.chainWrite ∉ auditStep now s loans := by
  induction loans generalizing s with
  | nil => simp [auditStep]
  | cons x rest ih =>
    cases x with
    | error u => simp [auditStep]
    | ok l =>
      rw [auditStep_block]
      intro hmem
      rcases List.mem_append.mp hmem with hm | hm
      · revert hm
        split <;> simp
      · exact ih (s + 1) hm

/-- C8: in an invocation of the Periodic Auditor in which every ledger
read succeeds, the output contains exactly one alert for each loan
satisfying `isActive && !isDefaulted && nextInstallmentIndex < 12 &&
now > dueTimestamp + 5616000` and none for any other loan (in particular
none when `nextInstallmentIndex >= 12` or `isDefaulted`), and contains
no chain-mutating transaction. -/
theorem c8_auditor_exactly_one_alert (loans : List AuditLoan) (now : ℚ) (i : ℕ)
    (h : i < loans.length) :
    (check_for_potential_defaults (loans.map Except.ok) now).count (AuditAction.alert i) =
      (if qualifying_overdue (loans.get ⟨i, h⟩) now then 1 else 0) ∧
    AuditAction.chainWrite ∉ check_for_potential_defaults (loans.map Except.ok) now := by
  constructor
  · have hc := auditStep_count now loans 0 i
    rw [Nat.zero_add] at hc
    rw [check_for_potential_defaults, hc, dif_pos h]
  · exact auditStep_no_chainWrite now _ 0

theorem c8_auditor_exactly_one_alert_witness :
    (check_for_potential_defaults (([⟨true, false, 0, 0⟩] : List AuditLoan).map Except.ok)
        6000000).count (AuditAction.alert 0) =
      (if qualifying_overdue
          ((([⟨true, false, 0, 0⟩] : List AuditLoan)).get ⟨0, by simp⟩) 6000000
        then 1 else 0) ∧
    AuditAction.chainWrite ∉
      check_for_potential_defaults (([⟨true, false, 0, 0⟩] : List AuditLoan).map Except.ok)
        6000000 :=
  c8_auditor_exactly_one_alert [⟨true, false, 0, 0⟩] 6000000 0 (by simp)

lemma auditStep_error_truncates (now : ℚ) (pre : List AuditLoan)
    (rest : List (Except Unit AuditLoan)) (s : ℕ) :
    auditStep now s (pre.map Except.ok ++ Except.error () :: rest) =
      auditStep now s (pre.map Except.ok) := by
  induction pre generalizing s with
  | nil => simp [auditStep]
  | cons l pre ih =>
    rw [List.map_cons, List.cons_append, auditStep_block, auditStep_block, ih]

lemma auditStep_alert_mem_lt (now : ℚ) (loans : List (Except Unit AuditLoan)) (s j : ℕ)
    (h : AuditAction.alert j ∈ auditStep now s loans) : j < s + loans.length := by
  induction loans generalizing s with
  | nil => simp [auditStep] at h
  | cons x rest ih =>
    cases x with
    | error u => simp [auditStep] at h
    | ok l =>
      rw [auditStep_block] at h
      rcases List.mem_append.mp h with hm | hm
      · have hj : j = s := by
          by_cases hq : qualifying_overdue l now
          · rw [if_pos hq] at hm
            have hms := List.mem_singleton.mp hm
            simpa using hms
          · rw [if_neg hq] at hm
            simp at hm
        simp only [List.length_cons]
        omega
      · have := ih (s + 1) hm
        simp only [List.length_cons]
        omega

/-- C10: the auditor's single `try/except` wraps the whole scan, so when
a ledger read raises at index `pre.length`, the invocation's output is
exactly the output over the prefix: alerts already emitted for earlier
loans stand, and no alert (qualifying or not) is emitted for any loan at
a later index — the auditor has no per-loan error isolation. -/
theorem c10_auditor_scan_aborts_on_error (pre post : List AuditLoan) (now : ℚ) :
    check_for_potential_defaults
        (pre.map Except.ok ++ Except.error () :: post.map Except.ok) now =
      check_for_potential_defaults (pre.map Except.ok) now ∧
    ∀ j, AuditAction.alert j ∈
        check_for_potential_defaults
          (pre.map Except.ok ++ Except.error () :: post.map Except.ok) now →
      j < pre.length := by
  refine ⟨auditStep_error_truncates now pre _ 0, fun j hj => ?_⟩
  rw [check_for_potential_defaults, auditStep_error_truncates now pre _ 0] at hj
  have hlt := auditStep_alert_mem_lt now (pre.map Except.ok) 0 j hj
  simpa using hlt

/-- What one iteration of the `while True` loop in `listen_for_events`
observes: the wall-clock time this iteration reads, and whether an
exception escapes the polling / event-dispatch steps of lines 130-146
(`check_for_potential_defaults` cannot raise: its body is wrapped in its
own catch-all `try/except`). -/
structure IterEnv where
  now : ℚ
  raises : Bool
deriving Repr

/-- What one loop iteration did: whether the periodic default check ran,
how many seconds the iteration slept at its end, and whether control
reached the next iteration of the `while True` loop. -/
structure IterResult where
  ran_audit : Bool
  slept : ℕ
  continued : Bool
deriving Repr, DecidableEq

/-- One iteration of the agent loop (listener.py lines 127-159):
if an exception escapes steps 1-3 the `except` logs it and sleeps 15
seconds; otherwise the auditor runs when more than 300 seconds have
passed since `last_default_check` (which is then reset to the current
time) and the iteration sleeps 15 seconds.  Both paths fall through to
the next `while` iteration. -/
def loop_iteration (last_default_check : ℚ) (env : IterEnv) : ℚ × IterResult :=
  if env.raises then (last_default_check, ⟨false, 15, true⟩)
  else if env.now - last_default_check > 300 then (env.now, ⟨true, 15, true⟩)
  else (last_default_check, ⟨false, 15, true⟩)

/-- The agent loop run over a finite trace of iteration environments,
threading `last_default_check` and stopping early only if an iteration
failed to continue. -/
def listen_for_events (last_default_check : ℚ) : List IterEnv → List IterResult
  | [] => []
  | env :: rest =>
    let p := loop_iteration last_default_check env
    if p.2.continued then p.2 :: listen_for_events p.1 rest else [p.2]

lemma loop_iteration_fields (last : ℚ) (env : IterEnv) :
    (loop_iteration last env).2.slept = 15 ∧
      (loop_iteration last env).2.continued = true := by
  unfold loop_iteration
  split
  · exact ⟨rfl, rfl⟩
  · split
    · exact ⟨rfl, rfl⟩
    · exact ⟨rfl, rfl⟩

/-- C9: over any finite trace of iterations, every iteration of the agent
loop completes — an exception escaping the polling or dispatch steps is
caught at the loop level and never terminates the loop — and every
iteration, failing or not, ends with the same 15-second pacing sleep
before the next one begins. -/
theorem c9_loop_survives_exceptions (last : ℚ) (envs : List IterEnv) :
    (listen_for_events last envs).length = envs.length ∧
    ∀ r ∈ listen_for_events last envs, r.slept = 15 ∧ r.continued = true := by
  induction envs generalizing last with
  | nil => exact ⟨rfl, by simp [listen_for_events]⟩
  | cons env rest ih =>
    obtain ⟨hs, hc⟩ := loop_iteration_fields last env
    rw [listen_for_events]
    obtain ⟨ihl, ihm⟩ := ih (loop_iteration last env).1
    constructor
    · simp only [hc, if_pos]
      simp [ihl]
    · simp only [hc, if_pos]
      intro r hr
      rcases List.mem_cons.mp hr with h | h
      · subst h
        exact ⟨hs, hc⟩
      · exact ihm r h

end Stokvel
